import Mathlib

/-
Verification of the field-normalization layer of the IMDb scraping pipeline:
runtime parsing, vote-count parsing, rank/title splitting, the keyword genre
classifier, the categorical bucketing, and the per-record composition used by
the CSV loader (csv_loader.py), the dashboard (imdb_dashboard.py) and the
scraper (import.py).

Embedding conventions: Python strings are Lean `String`s / `List Char`;
missing values (None / NaN / absent cells) are `Option.none`; numeric values
are carried as rationals `ℚ`.  The runtime parser's arithmetic is exact in
`ℚ` (`round(x, 2)` is rounding the rational to two decimal places, faithful
because the totals `h + m/60` are never within double-rounding distance of a
half-hundredth), while the vote-count parser's `float(...)` conversion and
multiplication are modelled by `fp64`, IEEE-754 binary64 rounding to nearest
even, because their results are observably float-rounded; `int(...)`
truncation of a non-negative value is
`Int.floor`.  Regular-expression fragments used by the source are embedded as
explicit character-list scanners, mirroring Python `re` semantics
(leftmost search, greedy digit runs, full-match anchoring) on the inputs in
question.
-/

namespace IMDB

/-- ASCII decimal digit, the embedding of the regex class `\d`. -/
def isPyDigit (c : Char) : Bool := c.isDigit

/-- ASCII whitespace recognised by Python `str.strip` and the regex class `\s`. -/
def isPySpace (c : Char) : Bool :=
  c == ' ' || c == '\t' || c == '\n' || c == '\r' || c == '\x0b' || c == '\x0c'

/-- Embedding of Python `str.strip()`: drop whitespace from both ends. -/
def pyStrip (l : List Char) : List Char :=
  ((l.dropWhile isPySpace).reverse.dropWhile isPySpace).reverse

/-- Numeric value of a decimal digit string, the embedding of Python `int(...)`
on a regex-matched digit run. -/
def digitsToNat (l : List Char) : ℕ :=
  l.foldl (fun a c => 10 * a + (c.toNat - 48)) 0

/-- Embedding of Python `str.lower()` (ASCII case folding). -/
def pyLower (l : List Char) : List Char := l.map Char.toLower

/-- Does `pat` occur at the start of `l`?  Auxiliary for substring search. -/
def startsWithChars : List Char → List Char → Bool
  | [], _ => true
  | _ :: _, [] => false
  | a :: as, b :: bs => a == b && startsWithChars as bs

/-- Embedding of the Python substring test `pat in l`. -/
def isSub (pat : List Char) : List Char → Bool
  | [] => pat.isEmpty
  | l@(_ :: xs) => startsWithChars pat l || isSub pat xs

/-- Round a rational to two decimal places, the embedding of Python
`round(x, 2)` on the exactly-representable values handled here (the values
reaching it in this code base are never half-way between two hundredths, so
the tie-breaking rule is irrelevant). -/
def round2 (q : ℚ) : ℚ := (round (q * 100) : ℤ) / 100

/-- Embedding of `re.search(r"(\d+)" ++ c, s)` for a non-digit literal `c`
(used with `c = 'h'` and `c = 'm'`): return the digit run of the leftmost
occurrence of one-or-more digits immediately followed by `c`, if any. -/
def searchNumThen (c : Char) : List Char → Option (List Char)
  | [] => none
  | x :: xs =>
    if isPyDigit x then
      match xs.dropWhile isPyDigit with
      | y :: _ => if y = c then some (x :: xs.takeWhile isPyDigit) else searchNumThen c xs
      | [] => none
    else searchNumThen c xs

/-- The `(hours, minutes)` pair extracted by `runtime_to_hours`: the leftmost
`(\d+)h` and `(\d+)m` matches, each defaulting to 0 when absent. -/
def runtimeHM (s : String) : ℕ × ℕ :=
  (match searchNumThen 'h' s.data with
    | some r => digitsToNat r
    | none => 0,
   match searchNumThen 'm' s.data with
    | some r => digitsToNat r
    | none => 0)

/-- The total `hours + minutes / 60` as an exact rational. -/
def runtimeTotal (hm : ℕ × ℕ) : ℚ := (hm.1 : ℚ) + (hm.2 : ℚ) / 60

/-- Embedding of `runtime_to_hours` from csv_loader.py: `None`/`'N/A'` give
`none`; otherwise the leftmost `(\d+)h` and `(\d+)m` matches give hours and
minutes, and the total `hours + minutes/60` is rounded to 2 decimals, with a
total of exactly 0 mapped to `none`. -/
def csv_runtime_to_hours : Option String → Option ℚ
  | none => none
  | some s =>
    if s = "N/A" then none
    else
      let total : ℚ := runtimeTotal (runtimeHM s)
      if 0 < total then some (round2 total) else none

/-- Embedding of `runtime_to_hours` from imdb_dashboard.py: identical to the
loader's parser except that the empty string is also treated as missing (the
`try/except` around the body can never fire on a string input, since digit
runs always convert). -/
def dash_runtime_to_hours : Option String → Option ℚ
  | none => none
  | some s =>
    if s = "N/A" ∨ s = "" then none
    else
      let total : ℚ := runtimeTotal (runtimeHM s)
      if 0 < total then some (round2 total) else none

/-- Embedding of `duration_category` from csv_loader.py. -/
def csv_duration_category : Option ℚ → String
  | none => "Unknown"
  | some hours =>
    if hours < 1.5 then "Short (< 1.5h)"
    else if hours < 2.5 then "Medium (1.5-2.5h)"
    else if hours < 3.5 then "Long (2.5-3.5h)"
    else "Very Long (> 3.5h)"

/-- Embedding of `duration_category` from imdb_dashboard.py, which additionally
maps an exact 0 to `'Unknown'`. -/
def dash_duration_category : Option ℚ → String
  | none => "Unknown"
  | some hours =>
    if hours = 0 then "Unknown"
    else if hours < 1.5 then "Short (< 1.5h)"
    else if hours < 2.5 then "Medium (1.5-2.5h)"
    else if hours < 3.5 then "Long (2.5-3.5h)"
    else "Very Long (> 3.5h)"

/-- Embedding of `rating_category` from csv_loader.py. -/
def csv_rating_category : Option ℚ → String
  | none => "Unrated"
  | some rating =>
    if rating < 6.0 then "Poor (< 6.0)"
    else if rating < 7.0 then "Average (6.0-7.0)"
    else if rating < 8.0 then "Good (7.0-8.0)"
    else if rating < 9.0 then "Excellent (8.0-9.0)"
    else "Masterpiece (9.0+)"

/-- Embedding of `rating_category` from imdb_dashboard.py (textually the same
chain as the loader's copy). -/
def dash_rating_category : Option ℚ → String
  | none => "Unrated"
  | some rating =>
    if rating < 6.0 then "Poor (< 6.0)"
    else if rating < 7.0 then "Average (6.0-7.0)"
    else if rating < 8.0 then "Good (7.0-8.0)"
    else if rating < 9.0 then "Excellent (8.0-9.0)"
    else "Masterpiece (9.0+)"

/-- Modelled from the spec (§4.5): scan ordered `(upper bound, label)` pairs
and return the label of the first bucket whose exclusive upper bound exceeds
the value. -/
def scanBuckets (v : ℚ) (finalLabel : String) : List (ℚ × String) → String
  | [] => finalLabel
  | (b, lab) :: rest => if v < b then lab else scanBuckets v finalLabel rest

/-- Modelled from the spec (§4.5): the Categorizer as described there — the
designated unknown label on missing input, otherwise the first-bucket scan.
This is the spec-side definition used to compare against the source's
if-chains. -/
def specCategorize (buckets : List (ℚ × String)) (finalLabel unknownLabel : String) :
    Option ℚ → String
  | none => unknownLabel
  | some v => scanBuckets v finalLabel buckets

/-- The duration BucketTable of the spec (§4.5). -/
def durationBuckets : List (ℚ × String) :=
  [(1.5, "Short (< 1.5h)"), (2.5, "Medium (1.5-2.5h)"), (3.5, "Long (2.5-3.5h)")]

/-- The rating BucketTable of the spec (§4.5). -/
def ratingBuckets : List (ℚ × String) :=
  [(6.0, "Poor (< 6.0)"), (7.0, "Average (6.0-7.0)"),
   (8.0, "Good (7.0-8.0)"), (9.0, "Excellent (8.0-9.0)")]

/-- Is `c` one of the vote-count suffix letters accepted by the regex class
`[KM]` under `re.IGNORECASE`? -/
def isKM (c : Char) : Bool := c == 'K' || c == 'k' || c == 'M' || c == 'm'

/-- Embedding of `v.strip().replace(",", "")` from `parse_votes_to_int`. -/
def cleanVotes (l : List Char) : List Char :=
  (pyStrip l).filter (fun c => !(c == ','))

/-- Embedding of `re.fullmatch(r"(\d+(?:\.\d+)?)([KM]?)", v, re.IGNORECASE)`:
on success, the integer digits, the fractional digits (possibly empty), and
the optional suffix letter. -/
def matchVotes (l : List Char) : Option (List Char × List Char × Option Char) :=
  if l.takeWhile isPyDigit = [] then none
  else
    match l.dropWhile isPyDigit with
    | [] => some (l.takeWhile isPyDigit, [], none)
    | x :: r₂ =>
      if x = '.' then
        if r₂.takeWhile isPyDigit = [] then none
        else
          match r₂.dropWhile isPyDigit with
          | [] => some (l.takeWhile isPyDigit, r₂.takeWhile isPyDigit, none)
          | y :: r₄ =>
            if isKM y && r₄.isEmpty then
              some (l.takeWhile isPyDigit, r₂.takeWhile isPyDigit, some y)
            else none
      else if isKM x && r₂.isEmpty then some (l.takeWhile isPyDigit, [], some x) else none

/-- Exact decimal value of the matched digit groups, i.e. the mathematical
value of `m.group(1)`; the source's `float(m.group(1))` is this value rounded
to binary64, see `fp64`. -/
def votesVal (d₁ d₂ : List Char) : ℚ :=
  (digitsToNat d₁ : ℚ) + (digitsToNat d₂ : ℚ) / (10 : ℚ) ^ d₂.length

/-- Multiplier selected by the suffix: 1000 for `K`, 1000000 for `M`, 1
otherwise. -/
def suffMult : Option Char → ℚ
  | none => 1
  | some c => if c == 'K' || c == 'k' then 1000
              else if c == 'M' || c == 'm' then 1000000
              else 1

/-- Round a rational to the nearest integer, ties to the even neighbour — the
rounding rule of IEEE-754 round-to-nearest-even, used at significand
granularity by `fp64`. -/
def roundEven (x : ℚ) : ℤ :=
  if x - ⌊x⌋ < 1 / 2 then ⌊x⌋
  else if 1 / 2 < x - ⌊x⌋ then ⌊x⌋ + 1
  else if Even ⌊x⌋ then ⌊x⌋ else ⌊x⌋ + 1

/-- Embedding of IEEE-754 binary64 rounding (round-to-nearest-even) for the
non-negative values arising in the vote-count parser: a positive value is
rounded to 53 significant bits at its binade, zero is exact.  This is the
value semantics of Python floats on the binary64 normal range
`[2^-1022, 2^1024)`, which covers every vote string of realistic length
(numeric parts with hundreds of digits, whose magnitudes go subnormal or
overflow, are outside this model). -/
def fp64 (q : ℚ) : ℚ :=
  if 0 < q then
    (roundEven (q * 2 ^ (52 - Int.log 2 q)) : ℚ) * 2 ^ (Int.log 2 q - 52)
  else 0

/-- Embedding of `parse_votes_to_int` from import.py: falsy or `'N/A'` input
gives `none`; otherwise strip, drop commas, full-match the vote pattern, then
compute the value in binary64 arithmetic exactly as the source does —
`float(m.group(1))` is the binary64 rounding of the decimal value, the suffix
multiplication is a binary64 multiplication (1000 and 1000000 are exact
doubles, so the product is the binary64 rounding of the exact product), and
`int(...)` truncates the non-negative result, i.e. takes its floor. -/
def parse_votes_to_int : Option String → Option ℤ
  | none => none
  | some v =>
    if v = "" ∨ v = "N/A" then none
    else
      match matchVotes (cleanVotes v.data) with
      | none => none
      | some (d₁, d₂, sx) => some ⌊fp64 (fp64 (votesVal d₁ d₂) * suffMult sx)⌋

/-- Fractional component of the full vote pattern: empty when there are no
fractional digits, otherwise a literal dot followed by them. -/
def fracChars : List Char → List Char
  | [] => []
  | d₂ => '.' :: d₂

/-- Characters contributed by the optional suffix. -/
def sfxChars : Option Char → List Char
  | none => []
  | some c => [c]

/-- Is the optional suffix admissible (`K`/`M`, either case, or absent)? -/
def sfxOk : Option Char → Bool
  | none => true
  | some c => isKM c

/-- Declarative form of the vote-count language (spec §4.2): the cleaned
string decomposes as one-or-more digits, an optional dot-plus-digits
fractional part, and an optional single `K`/`M` suffix. -/
def VotesShape (w d₁ d₂ : List Char) (sx : Option Char) : Prop :=
  w = d₁ ++ fracChars d₂ ++ sfxChars sx ∧ d₁ ≠ [] ∧
    (∀ c ∈ d₁, isPyDigit c = true) ∧ (∀ c ∈ d₂, isPyDigit c = true) ∧ sfxOk sx = true

/-- Embedding of a plain decimal numeral `digits` or `digits.digits`
(optionally signed), the core accepted by `pd.to_numeric(..., errors='coerce')`
on the string inputs this pipeline feeds it. -/
def parseUnsignedDecimal (l : List Char) : Option ℚ :=
  let d₁ := l.takeWhile isPyDigit
  if d₁ = [] then none
  else
    match l.dropWhile isPyDigit with
    | [] => some (digitsToNat d₁)
    | x :: r₂ =>
      if x = '.' then
        if r₂.dropWhile isPyDigit = [] then
          some ((digitsToNat d₁ : ℚ) +
            (digitsToNat (r₂.takeWhile isPyDigit) : ℚ) / (10 : ℚ) ^ (r₂.takeWhile isPyDigit).length)
        else none
      else none

/-- Embedding of `pd.to_numeric(x, errors='coerce')` on an optional string:
missing stays missing, a (signed) decimal numeral converts, anything else
coerces to missing. -/
def pyToNumeric : Option String → Option ℚ
  | none => none
  | some s =>
    match pyStrip s.data with
    | '-' :: r => (parseUnsignedDecimal r).map (fun q => -q)
    | '+' :: r => parseUnsignedDecimal r
    | l => parseUnsignedDecimal l

/-- Embedding of `clean_votes` from imdb_dashboard.py: missing, `'N/A'` or
empty input is mapped to the number 0; anything else is numerically coerced
(so an unparsable string becomes missing, since `pd.to_numeric` with
`errors='coerce'` does not raise). -/
def clean_votes : Option String → Option ℚ
  | none => some 0
  | some v =>
    if v = "N/A" ∨ v = "" then some 0
    else pyToNumeric (some v)

/-- Does the tail of the `re.match(r"^(\d+)\.\s*(.*)$", ...)` pattern accept
the remainder `r` (taken after the greedy `\s*`)?  `.` does not cross a
newline and `$` anchors at the end or just before one trailing newline, so
`r` is accepted iff it has no newline other than possibly a final one. -/
def dollarOk (r : List Char) : Bool :=
  !(r.contains '\n') || (r.getLast? == some '\n' && !(r.dropLast.contains '\n'))

/-- Embedding of `re.match(r"^(\d+)\.\s*(.*)$", l)`: on success, the leading
digit run and the remainder after the literal dot and the whitespace run (the
remainder that `.strip()` is applied to; a trailing newline is immaterial
under the subsequent strip). -/
def rankMatch (l : List Char) : Option (List Char × List Char) :=
  let ds := l.takeWhile isPyDigit
  if ds = [] then none
  else
    match l.dropWhile isPyDigit with
    | x :: rest =>
      if x = '.' then
        let r := rest.dropWhile isPySpace
        if dollarOk r then some (ds, r) else none
      else none
    | [] => none

/-- Embedding of `normalize_title_and_rank` from import.py: falsy input gives
`(None, "N/A")`; a match of `^(\d+)\.\s*(.*)$` gives the integer rank and the
stripped remainder; otherwise no rank and the stripped whole string. -/
def normalize_title_and_rank : Option String → Option ℕ × String
  | none => (none, "N/A")
  | some s =>
    if s = "" then (none, "N/A")
    else
      match rankMatch s.data with
      | some (ds, r) => (some (digitsToNat ds), String.mk (pyStrip r))
      | none => (none, String.mk (pyStrip s.data))

/-- The GenreKeywordTable of `extract_genres` in csv_loader.py, in its
declared (insertion) order. -/
def csv_genre_keywords : List (String × List String) :=
  [("Action", ["action", "fight", "war", "battle", "combat", "martial"]),
   ("Romance", ["love", "romance", "wedding", "romantic", "heart"]),
   ("Horror", ["horror", "scary", "fear", "dark", "evil", "ghost", "zombie"]),
   ("Comedy", ["comedy", "funny", "laugh", "humor", "fun"]),
   ("Drama", ["drama", "life", "story", "human", "family"]),
   ("Sci-Fi", ["sci-fi", "space", "future", "robot", "alien", "time"]),
   ("Crime", ["crime", "murder", "detective", "police", "criminal"]),
   ("Adventure", ["adventure", "journey", "quest", "treasure", "exploration"]),
   ("Thriller", ["thriller", "suspense", "mystery", "dangerous"]),
   ("Fantasy", ["fantasy", "magic", "wizard", "dragon", "fairy"]),
   ("Animation", ["animation", "animated", "cartoon"]),
   ("Documentary", ["documentary", "real", "true", "documentary"]),
   ("Biography", ["biography", "bio", "life of", "story of"]),
   ("History", ["history", "historical", "war", "ancient"]),
   ("Music", ["music", "musical", "song", "band", "concert"]),
   ("Sport", ["sport", "football", "basketball", "baseball", "olympic"]),
   ("Western", ["western", "cowboy", "frontier"]),
   ("Family", ["family", "kids", "children", "kid"])]

/-- The GenreKeywordTable of `extract_genres` in imdb_dashboard.py, in its
declared (insertion) order. -/
def dash_genre_keywords : List (String × List String) :=
  [("Action", ["action", "fight", "war", "battle", "combat", "martial", "warrior"]),
   ("Romance", ["love", "romance", "wedding", "romantic", "heart"]),
   ("Horror", ["horror", "scary", "fear", "dark", "evil", "ghost", "zombie", "demon"]),
   ("Comedy", ["comedy", "funny", "laugh", "humor", "fun", "comic"]),
   ("Drama", ["drama", "life", "story", "human", "family", "emotional"]),
   ("Sci-Fi", ["sci-fi", "space", "future", "robot", "alien", "time", "science"]),
   ("Crime", ["crime", "murder", "detective", "police", "criminal", "investigation"]),
   ("Adventure", ["adventure", "journey", "quest", "treasure", "exploration", "expedition"]),
   ("Thriller", ["thriller", "suspense", "mystery", "dangerous", "tension"]),
   ("Fantasy", ["fantasy", "magic", "wizard", "dragon", "fairy", "mythical"]),
   ("Animation", ["animation", "animated", "cartoon", "anime"]),
   ("Documentary", ["documentary", "real", "true", "documentary", "factual"]),
   ("Biography", ["biography", "bio", "life of", "story of", "based on"]),
   ("History", ["history", "historical", "ancient", "period", "era"]),
   ("Music", ["music", "musical", "song", "band", "concert", "singer"]),
   ("Sport", ["sport", "football", "basketball", "baseball", "olympic", "athlete"]),
   ("Western", ["western", "cowboy", "frontier", "wild west"]),
   ("Family", ["family", "kids", "children", "kid", "child"])]

/-- Genres whose keyword set hits the lower-cased title, in table order (the
loop body of `extract_genres`). -/
def matchedGenres (table : List (String × List String)) (t : String) : List String :=
  (table.filter (fun g => g.2.any (fun kw => isSub kw.data (pyLower t.data)))).map Prod.fst

/-- The genre sequence computed by `extract_genres` over a given table:
missing title or zero matches default to `["Drama"]`. -/
def extractGenresFrom (table : List (String × List String)) : Option String → List String
  | none => ["Drama"]
  | some t => if matchedGenres table t = [] then ["Drama"] else matchedGenres table t

/-- Genre sequence of the loader's `extract_genres`. -/
def csv_extract_genres : Option String → List String :=
  extractGenresFrom csv_genre_keywords

/-- Genre sequence of the dashboard's `extract_genres(title, year)`; the year
argument is accepted and ignored, as in the source. -/
def dash_extract_genres (title : Option String) (_year : Option String) : List String :=
  extractGenresFrom dash_genre_keywords title

/-- Embedding of `', '.join(genres)`. -/
def joinGenres : List String → List Char
  | [] => []
  | [g] => g.data
  | g :: gs => g.data ++ ',' :: ' ' :: joinGenres gs

/-- Embedding of the `Primary_Genre` derivation
`.str.split(',').str[0].str.strip()` applied to the joined genre string:
the prefix before the first comma, stripped. -/
def primaryFrom (table : List (String × List String)) (t : Option String) : String :=
  String.mk (pyStrip ((joinGenres (extractGenresFrom table t)).takeWhile (fun c => !(c == ','))))

/-- `Primary_Genre` in the loader path. -/
def csv_primary_genre (t : Option String) : String := primaryFrom csv_genre_keywords t

/-- `Primary_Genre` in the dashboard path. -/
def dash_primary_genre (t : Option String) (_year : Option String) : String :=
  primaryFrom dash_genre_keywords t

/-- A raw scraped/loaded record: the relevant columns, each possibly absent
(spec §3, RawRecord). -/
structure RawRecord where
  title : Option String
  year : Option String
  runtime : Option String
  imdbRating : Option String
  votesNumeric : Option String

/-- A normalized record: the typed fields derived by the ingestion paths
(spec §3, NormalizedRecord). -/
structure NormalizedRecord where
  title : Option String
  rating : Option ℚ
  durationHours : Option ℚ
  genres : List String
  primaryGenre : String
  votesNumeric : Option ℚ
  durationCategory : String
  ratingCategory : String
  year : Option ℚ

/-- The loader's Row Normalizer: the per-field derivations of steps 1–6 and 8
of `load_imdb_csv`, composed on one record.  Total — every sub-parser
degrades failures to the field's missing representation. -/
def normalizeRecord (r : RawRecord) : NormalizedRecord :=
  { title := r.title
    rating := pyToNumeric r.imdbRating
    durationHours := csv_runtime_to_hours r.runtime
    genres := csv_extract_genres r.title
    primaryGenre := csv_primary_genre r.title
    votesNumeric := pyToNumeric r.votesNumeric
    durationCategory := csv_duration_category (csv_runtime_to_hours r.runtime)
    ratingCategory := csv_rating_category (pyToNumeric r.imdbRating)
    year := pyToNumeric r.year }

/-- Batch application of the loader's Row Normalizer. -/
def normalizeBatch (rs : List RawRecord) : List NormalizedRecord :=
  rs.map normalizeRecord

/-- The loader's step-7 row-dropping criterion:
`dropna(subset=['Title', 'IMDb Rating'])` keeps a row iff both are present. -/
def keepCritical (n : NormalizedRecord) : Bool :=
  n.title.isSome && n.rating.isSome

/-- The row-level content of `load_imdb_csv`: normalize every record, then —
as a separate, subsequent stage — drop the rows missing title or rating. -/
def load_imdb_csv_rows (rs : List RawRecord) : List NormalizedRecord :=
  (normalizeBatch rs).filter keepCritical

/-- The dashboard's Row Normalizer: the per-field derivations of
`load_and_process_data`, composed on one record.  Differences from the
loader: its own runtime parser and genre table, `clean_votes` for votes, and
`Year` filled with 2024 when missing. -/
def dashNormalizeRecord (r : RawRecord) : NormalizedRecord :=
  { title := r.title
    rating := pyToNumeric r.imdbRating
    durationHours := dash_runtime_to_hours r.runtime
    genres := dash_extract_genres r.title r.year
    primaryGenre := dash_primary_genre r.title r.year
    votesNumeric := clean_votes r.votesNumeric
    durationCategory := dash_duration_category (dash_runtime_to_hours r.runtime)
    ratingCategory := dash_rating_category (pyToNumeric r.imdbRating)
    year := some ((pyToNumeric r.year).getD 2024) }

/-- The dashboard's row-dropping criterion: a present title that is neither
empty nor `'N/A'`. -/
def dashKeep (n : NormalizedRecord) : Bool :=
  match n.title with
  | some t => !(t == "") && !(t == "N/A")
  | none => false

/-- The row-level content of `load_and_process_data`: normalize every record,
then — as a separate, subsequent stage — drop the rows with a missing, empty
or `'N/A'` title. -/
def load_and_process_rows (rs : List RawRecord) : List NormalizedRecord :=
  (rs.map dashNormalizeRecord).filter dashKeep

-- ## General list-scanning lemmas

lemma takeWhile_all {p : Char → Bool} {l : List Char} (h : ∀ c ∈ l, p c = true) :
    l.takeWhile p = l := by
  induction l with
  | nil => rfl
  | cons x xs ih =>
    simp only [List.takeWhile_cons, h x (List.mem_cons_self x xs), ih
      (fun c hc => h c (List.mem_cons_of_mem x hc))]
    simp

lemma dropWhile_all {p : Char → Bool} {l : List Char} (h : ∀ c ∈ l, p c = true) :
    l.dropWhile p = [] := by
  induction l with
  | nil => rfl
  | cons x xs ih =>
    simp only [List.dropWhile_cons, h x (List.mem_cons_self x xs), if_true, ih
      (fun c hc => h c (List.mem_cons_of_mem x hc))]

lemma takeWhile_append_stop {p : Char → Bool} {ds : List Char} {y : Char} {rest : List Char}
    (h : ∀ c ∈ ds, p c = true) (hy : p y = false) :
    (ds ++ y :: rest).takeWhile p = ds := by
  induction ds with
  | nil => simp [List.takeWhile_cons, hy]
  | cons x xs ih =>
    simp only [List.cons_append, List.takeWhile_cons, h x (List.mem_cons_self x xs),
      ih (fun c hc => h c (List.mem_cons_of_mem x hc))]
    simp

lemma dropWhile_append_stop {p : Char → Bool} {ds : List Char} {y : Char} {rest : List Char}
    (h : ∀ c ∈ ds, p c = true) (hy : p y = false) :
    (ds ++ y :: rest).dropWhile p = y :: rest := by
  induction ds with
  | nil => simp [List.dropWhile_cons, hy]
  | cons x xs ih =>
    simp only [List.cons_append, List.dropWhile_cons, h x (List.mem_cons_self x xs), if_true,
      ih (fun c hc => h c (List.mem_cons_of_mem x hc))]

lemma searchNumThen_cons_digit (c x : Char) (xs : List Char) (hx : isPyDigit x = true) :
    searchNumThen c (x :: xs) =
      (match xs.dropWhile isPyDigit with
       | y :: _ => if y = c then some (x :: xs.takeWhile isPyDigit) else searchNumThen c xs
       | [] => none) := by
  simp [searchNumThen, hx]

lemma searchNumThen_cons_nondigit (c x : Char) (xs : List Char) (hx : isPyDigit x = false) :
    searchNumThen c (x :: xs) = searchNumThen c xs := by
  simp [searchNumThen, hx]

lemma searchNumThen_at_start {c : Char} {ds rest : List Char} (hne : ds ≠ [])
    (hds : ∀ x ∈ ds, isPyDigit x = true) (hc : isPyDigit c = false) :
    searchNumThen c (ds ++ c :: rest) = some ds := by
  cases ds with
  | nil => exact absurd rfl hne
  | cons d ds' =>
    rw [List.cons_append, searchNumThen_cons_digit c d _ (hds d (List.mem_cons_self d ds'))]
    rw [dropWhile_append_stop (fun x hx => hds x (List.mem_cons_of_mem d hx)) hc,
      takeWhile_append_stop (fun x hx => hds x (List.mem_cons_of_mem d hx)) hc]
    simp

lemma searchNumThen_skip_run {c : Char} {ds : List Char} {y : Char} {rest : List Char}
    (hds : ∀ x ∈ ds, isPyDigit x = true) (hy : isPyDigit y = false) (hyc : y ≠ c) :
    searchNumThen c (ds ++ y :: rest) = searchNumThen c rest := by
  induction ds with
  | nil =>
    simpa using searchNumThen_cons_nondigit c y rest hy
  | cons d ds' ih =>
    rw [List.cons_append, searchNumThen_cons_digit c d _ (hds d (List.mem_cons_self d ds'))]
    rw [dropWhile_append_stop (fun x hx => hds x (List.mem_cons_of_mem d hx)) hy]
    simp only [if_neg hyc]
    exact ih (fun x hx => hds x (List.mem_cons_of_mem d hx))

-- ## Runtime parser: C5, C6, C10

lemma runtimeTotal_cast_eq (a b : ℕ) :
    (a : ℚ) + (b : ℚ) / 60 = ((60 * a + b : ℕ) : ℚ) / 60 := by
  push_cast
  ring

lemma runtimeTotal_pos {a b : ℕ} (h : 0 < a + b) : 0 < (a : ℚ) + (b : ℚ) / 60 := by
  rcases Nat.eq_zero_or_pos a with ha | ha
  · subst ha
    have hb : 0 < b := by omega
    have : (0 : ℚ) < (b : ℚ) / 60 := by positivity
    simpa using this
  · have h1 : (0 : ℚ) < (a : ℚ) := by exact_mod_cast ha
    have h2 : (0 : ℚ) ≤ (b : ℚ) / 60 := by positivity
    linarith

lemma runtimeTotal_ge {a b : ℕ} (h : 0 < (a : ℚ) + (b : ℚ) / 60) :
    1 / 60 ≤ (a : ℚ) + (b : ℚ) / 60 := by
  rw [runtimeTotal_cast_eq] at h ⊢
  have h60 : (0 : ℚ) < 60 := by norm_num
  have hne : 60 * a + b ≠ 0 := by
    intro h0
    rw [h0] at h
    norm_num at h
  have h1 : (1 : ℚ) ≤ ((60 * a + b : ℕ) : ℚ) := by
    exact_mod_cast Nat.one_le_iff_ne_zero.mpr hne
  exact (div_le_div_iff_of_pos_right h60).mpr h1

lemma round2_pos {q : ℚ} (h : 1 / 60 ≤ q) : 0 < round2 q := by
  have hfl : (1 : ℤ) ≤ round (q * 100) := by
    rw [round_eq]
    refine Int.le_floor.mpr ?_
    push_cast
    linarith
  have h1 : (1 : ℚ) ≤ ((round (q * 100) : ℤ) : ℚ) := by exact_mod_cast hfl
  unfold round2
  positivity

lemma runtime_out_pos :
    ∀ (s : Option String) (v : ℚ),
      csv_runtime_to_hours s = some v ∨ dash_runtime_to_hours s = some v → 0 < v := by
  intro s v h
  rcases h with h | h
  · cases s with
    | none => simp [csv_runtime_to_hours] at h
    | some t =>
      by_cases hna : t = "N/A"
      · simp [csv_runtime_to_hours, hna] at h
      · rw [csv_runtime_to_hours, if_neg hna] at h
        by_cases hpos : 0 < runtimeTotal (runtimeHM t)
        · rw [if_pos hpos] at h
          obtain ⟨rfl⟩ : round2 (runtimeTotal (runtimeHM t)) = v := by
            simpa using h
          exact round2_pos (runtimeTotal_ge (by simpa [runtimeTotal] using hpos))
        · rw [if_neg hpos] at h
          exact absurd h (by simp)
  · cases s with
    | none => simp [dash_runtime_to_hours] at h
    | some t =>
      by_cases hna : t = "N/A" ∨ t = ""
      · simp [dash_runtime_to_hours, hna] at h
      · rw [dash_runtime_to_hours, if_neg hna] at h
        by_cases hpos : 0 < runtimeTotal (runtimeHM t)
        · rw [if_pos hpos] at h
          obtain ⟨rfl⟩ : round2 (runtimeTotal (runtimeHM t)) = v := by
            simpa using h
          exact round2_pos (runtimeTotal_ge (by simpa [runtimeTotal] using hpos))
        · rw [if_neg hpos] at h
          exact absurd h (by simp)


lemma runtimeHM_shape {s : String} {ds₁ ds₂ : List Char}
    (hdata : s.data = ds₁ ++ 'h' :: ' ' :: (ds₂ ++ ['m']))
    (h1 : ds₁ ≠ []) (h2 : ds₂ ≠ [])
    (hd1 : ∀ x ∈ ds₁, isPyDigit x = true) (hd2 : ∀ x ∈ ds₂, isPyDigit x = true) :
    runtimeHM s = (digitsToNat ds₁, digitsToNat ds₂) := by
  have hh : searchNumThen 'h' s.data = some ds₁ := by
    rw [hdata]
    exact searchNumThen_at_start h1 hd1 (by decide)
  have hm : searchNumThen 'm' s.data = some ds₂ := by
    rw [hdata]
    have e1 : searchNumThen 'm' (ds₁ ++ 'h' :: (' ' :: (ds₂ ++ ['m']))) =
        searchNumThen 'm' (' ' :: (ds₂ ++ ['m'])) :=
      searchNumThen_skip_run hd1 (by decide) (by decide)
    rw [e1, searchNumThen_cons_nondigit _ _ _ (by decide)]
    have e2 : ds₂ ++ ['m'] = ds₂ ++ 'm' :: [] := rfl
    rw [e2, searchNumThen_at_start h2 hd2 (by decide)]
  unfold runtimeHM
  rw [hh, hm]

lemma shape_ne_na {s : String} {ds₁ ds₂ : List Char}
    (hdata : s.data = ds₁ ++ 'h' :: ' ' :: (ds₂ ++ ['m'])) : s ≠ "N/A" := by
  intro hs
  subst hs
  have hmem : 'h' ∈ ("N/A" : String).data := by
    rw [hdata]
    exact List.mem_append_right _ (List.mem_cons_self _ _)
  revert hmem
  decide

lemma shape_ne_empty {s : String} {ds₁ ds₂ : List Char}
    (hdata : s.data = ds₁ ++ 'h' :: ' ' :: (ds₂ ++ ['m'])) : s ≠ "" := by
  intro hs
  subst hs
  have hmem : 'h' ∈ ("" : String).data := by
    rw [hdata]
    exact List.mem_append_right _ (List.mem_cons_self _ _)
  revert hmem
  decide

/-- Claim C5, amended: the Runtime Parser maps absent input and `"N/A"` to the
undefined sentinel, and maps every string of the form `<h>h <m>m` (`h`, `m`
non-empty digit sequences) with at least one non-zero group to `h + m/60`
rounded to two decimal places; when both digit groups are zero the parser
returns the undefined sentinel instead of the rounded value 0.00 (see the
counterexample), which is the only change the code forces on the claim.  Both
copies of `runtime_to_hours` behave this way. -/
theorem runtime_parser_c5 :
    (csv_runtime_to_hours none = none ∧ csv_runtime_to_hours (some "N/A") = none ∧
     dash_runtime_to_hours none = none ∧ dash_runtime_to_hours (some "N/A") = none) ∧
    ∀ (s : String) (ds₁ ds₂ : List Char),
      s.data = ds₁ ++ 'h' :: ' ' :: (ds₂ ++ ['m']) →
      ds₁ ≠ [] → ds₂ ≠ [] →
      (∀ x ∈ ds₁, isPyDigit x = true) → (∀ x ∈ ds₂, isPyDigit x = true) →
      0 < digitsToNat ds₁ + digitsToNat ds₂ →
      csv_runtime_to_hours (some s) =
          some (round2 ((digitsToNat ds₁ : ℚ) + (digitsToNat ds₂ : ℚ) / 60)) ∧
        dash_runtime_to_hours (some s) =
          some (round2 ((digitsToNat ds₁ : ℚ) + (digitsToNat ds₂ : ℚ) / 60)) := by
  constructor
  · exact ⟨rfl, by simp [csv_runtime_to_hours], rfl, by simp [dash_runtime_to_hours]⟩
  · intro s ds₁ ds₂ hdata h1 h2 hd1 hd2 hpos
    have hhm := runtimeHM_shape hdata h1 h2 hd1 hd2
    have htot : runtimeTotal (runtimeHM s) =
        (digitsToNat ds₁ : ℚ) + (digitsToNat ds₂ : ℚ) / 60 := by
      rw [hhm]
      rfl
    have hq : 0 < (digitsToNat ds₁ : ℚ) + (digitsToNat ds₂ : ℚ) / 60 :=
      runtimeTotal_pos hpos
    constructor
    · rw [csv_runtime_to_hours, if_neg (shape_ne_na hdata)]
      simp only [htot]
      rw [if_pos hq]
    · rw [dash_runtime_to_hours,
        if_neg (by push_neg; exact ⟨shape_ne_na hdata, shape_ne_empty hdata⟩)]
      simp only [htot]
      rw [if_pos hq]

/-- Claim C5, counterexample: `"0h 0m"` has the `<h>h <m>m` form, yet the
parser returns the undefined sentinel rather than the rounded total 0.00 the
claim prescribes for every such string. -/
theorem runtime_parser_c5_counterexample :
    csv_runtime_to_hours (some "0h 0m") ≠
      some (round2 ((digitsToNat ['0'] : ℚ) + (digitsToNat ['0'] : ℚ) / 60)) := by
  have h : runtimeHM "0h 0m" = (0, 0) := by decide
  rw [csv_runtime_to_hours, if_neg (by decide : ¬(("0h 0m" : String) = "N/A"))]
  simp [h, runtimeTotal]

/-- Claim C5, witness: instantiating the amended theorem at `"2h 30m"`. -/
theorem runtime_parser_c5_witness :
    csv_runtime_to_hours (some "2h 30m") =
      some (round2 ((digitsToNat ['2'] : ℚ) + (digitsToNat ['3', '0'] : ℚ) / 60)) :=
  (runtime_parser_c5.2 "2h 30m" ['2'] ['3', '0'] (by decide) (by decide) (by decide)
    (by decide) (by decide) (by decide)).1


lemma dash_csv_duration_cat_eq {o : Option ℚ} (h : ∀ v, o = some v → 0 < v) :
    dash_duration_category o = csv_duration_category o := by
  cases o with
  | none => rfl
  | some v =>
    have hv : 0 < v := h v rfl
    simp only [dash_duration_category, csv_duration_category]
    rw [if_neg hv.ne']

/-- Claim C6: every defined output of either copy of the Runtime Parser is
strictly positive — a computed total of exactly 0 yields the undefined
sentinel, never the number 0. -/
theorem runtime_defined_pos_c6 :
    ∀ (s : Option String) (v : ℚ),
      csv_runtime_to_hours s = some v ∨ dash_runtime_to_hours s = some v → 0 < v :=
  runtime_out_pos

/-- Claim C6, witness: the parser output on `"1h"` is 1, which is positive. -/
theorem runtime_defined_pos_c6_witness :
    csv_runtime_to_hours (some "1h") = some 1 ∧ (0 : ℚ) < 1 := by
  have h : csv_runtime_to_hours (some "1h") = some 1 := by
    have hm : runtimeHM "1h" = (1, 0) := by decide
    rw [csv_runtime_to_hours, if_neg (by decide : ¬(("1h" : String) = "N/A"))]
    simp only [hm, runtimeTotal]
    norm_num [round2, round_eq]
  exact ⟨h, runtime_defined_pos_c6 (some "1h") 1 (Or.inl h)⟩

/-- Claim C10: on every value either runtime parser can output, the loader's
and the dashboard's duration categorizers agree — the dashboard's extra
`hours == 0` branch is unreachable on parser outputs, because the parsers
return the undefined sentinel instead of 0. -/
theorem duration_category_agree_c10 :
    ∀ s : Option String,
      dash_duration_category (csv_runtime_to_hours s) =
          csv_duration_category (csv_runtime_to_hours s) ∧
        dash_duration_category (dash_runtime_to_hours s) =
          csv_duration_category (dash_runtime_to_hours s) := by
  intro s
  constructor
  · exact dash_csv_duration_cat_eq (fun v hv => runtime_out_pos s v (Or.inl hv))
  · exact dash_csv_duration_cat_eq (fun v hv => runtime_out_pos s v (Or.inr hv))

-- ## Categorizer: C8

/-- Claim C8, counterexample: the dashboard's duration categorizer maps the
defined value 0 to `'Unknown'`, not to the label of the first bucket whose
upper bound exceeds it (`'Short (< 1.5h)'`), so the claimed scan rule does
not hold for every input of every categorizer. -/
theorem categorizer_c8_counterexample :
    dash_duration_category (some 0) ≠
      specCategorize durationBuckets "Very Long (> 3.5h)" "Unknown" (some 0) := by
  norm_num [dash_duration_category, specCategorize, scanBuckets, durationBuckets]
  decide

/-- Claim C8, amended: missing input yields the designated unknown label, and
the first-bucket scan rule of the spec describes the loader's duration
categorizer and both rating categorizers on every input, and the dashboard's
duration categorizer on every input except the defined value 0 (which its
extra branch sends to `'Unknown'`); the claim's three instances hold as
stated. -/
theorem categorizer_c8 :
    (csv_rating_category (some 8.5) = "Excellent (8.0-9.0)" ∧
     csv_rating_category none = "Unrated" ∧
     dash_rating_category none = "Unrated" ∧
     csv_duration_category none = "Unknown" ∧
     dash_duration_category none = "Unknown" ∧
     csv_duration_category (some 4) = "Very Long (> 3.5h)") ∧
    ∀ o : Option ℚ,
      csv_duration_category o =
          specCategorize durationBuckets "Very Long (> 3.5h)" "Unknown" o ∧
        csv_rating_category o =
          specCategorize ratingBuckets "Masterpiece (9.0+)" "Unrated" o ∧
        dash_rating_category o =
          specCategorize ratingBuckets "Masterpiece (9.0+)" "Unrated" o ∧
        (o ≠ some 0 →
          dash_duration_category o =
            specCategorize durationBuckets "Very Long (> 3.5h)" "Unknown" o) := by
  constructor
  · refine ⟨?_, rfl, rfl, rfl, rfl, ?_⟩
    · norm_num [csv_rating_category]
    · norm_num [csv_duration_category]
  · intro o
    cases o with
    | none => exact ⟨rfl, rfl, rfl, fun _ => rfl⟩
    | some v =>
      refine ⟨rfl, rfl, rfl, fun h0 => ?_⟩
      have hv : v ≠ 0 := fun hv => h0 (by rw [hv])
      simp only [dash_duration_category, specCategorize, scanBuckets, durationBuckets]
      rw [if_neg hv]

/-- Claim C8, witness: the amended scan rule instantiated at duration 4. -/
theorem categorizer_c8_witness :
    dash_duration_category (some 4) =
      specCategorize durationBuckets "Very Long (> 3.5h)" "Unknown" (some 4) :=
  (categorizer_c8.2 (some 4)).2.2.2 (by norm_num)

-- ## Vote-count parser: match lemmas

lemma isKM_nondigit {c : Char} (h : isKM c = true) : isPyDigit c = false := by
  simp only [isKM, Bool.or_eq_true, beq_iff_eq] at h
  rcases h with ((h | h) | h) | h <;> subst h <;> decide

lemma isKM_ne_dot {c : Char} (h : isKM c = true) : c ≠ '.' := by
  simp only [isKM, Bool.or_eq_true, beq_iff_eq] at h
  rcases h with ((h | h) | h) | h <;> subst h <;> decide

lemma votesShape_sound {w d₁ d₂ : List Char} {sx : Option Char}
    (h : VotesShape w d₁ d₂ sx) : matchVotes w = some (d₁, d₂, sx) := by
  obtain ⟨hw, h1, hd1, hd2, hsx⟩ := h
  subst hw
  cases d₂ with
  | nil =>
    simp only [fracChars, List.append_nil]
    cases sx with
    | none =>
      simp only [sfxChars, List.append_nil]
      unfold matchVotes
      rw [takeWhile_all hd1, dropWhile_all hd1]
      simp [h1]
    | some c =>
      have hkm : isKM c = true := hsx
      simp only [sfxChars]
      unfold matchVotes
      rw [takeWhile_append_stop hd1 (isKM_nondigit hkm),
        dropWhile_append_stop hd1 (isKM_nondigit hkm)]
      simp [h1, isKM_ne_dot hkm, hkm]
  | cons a as =>
    have hd2' : ∀ c ∈ a :: as, isPyDigit c = true := hd2
    simp only [fracChars]
    cases sx with
    | none =>
      simp only [sfxChars, List.append_nil]
      unfold matchVotes
      rw [takeWhile_append_stop hd1 (by decide), dropWhile_append_stop hd1 (by decide)]
      simp [h1, takeWhile_all hd2', dropWhile_all hd2']
    | some c =>
      have hkm : isKM c = true := hsx
      simp only [sfxChars]
      have e : (d₁ ++ '.' :: a :: as) ++ [c] = d₁ ++ '.' :: ((a :: as) ++ [c]) := by simp
      rw [e]
      unfold matchVotes
      rw [takeWhile_append_stop hd1 (by decide), dropWhile_append_stop hd1 (by decide)]
      have htw : List.takeWhile isPyDigit ((a :: as) ++ [c]) = a :: as :=
        takeWhile_append_stop hd2' (isKM_nondigit hkm)
      have hdw : List.dropWhile isPyDigit ((a :: as) ++ [c]) = [c] :=
        dropWhile_append_stop hd2' (isKM_nondigit hkm)
      rw [List.cons_append] at htw hdw
      simp [h1, hkm, htw, hdw]


lemma fracChars_of_ne {d₂ : List Char} (h : ¬ d₂ = []) : fracChars d₂ = '.' :: d₂ := by
  cases d₂ with
  | nil => exact absurd rfl h
  | cons a as => rfl

lemma votesShape_complete {w d₁ d₂ : List Char} {sx : Option Char}
    (h : matchVotes w = some (d₁, d₂, sx)) : VotesShape w d₁ d₂ sx := by
  have hw : List.takeWhile isPyDigit w ++ List.dropWhile isPyDigit w = w :=
    List.takeWhile_append_dropWhile isPyDigit w
  unfold matchVotes at h
  split at h
  · exact absurd h (by simp)
  next h1 =>
    split at h
    next hdw =>
      simp only [Option.some.injEq, Prod.mk.injEq] at h
      obtain ⟨e1, e2, e3⟩ := h
      refine ⟨?_, by rw [← e1]; exact h1, by rw [← e1]; exact fun c hc => List.mem_takeWhile_imp hc,
        by rw [← e2]; simp, by rw [← e3]; rfl⟩
      rw [← e1, ← e2, ← e3]
      rw [fracChars, sfxChars, List.append_nil, List.append_nil]
      rw [hdw, List.append_nil] at hw
      exact hw.symm
    next x r₂ hdw =>
      split at h
      next hx =>
        subst hx
        split at h
        · exact absurd h (by simp)
        next h2 =>
          have hw2 : List.takeWhile isPyDigit r₂ ++ List.dropWhile isPyDigit r₂ = r₂ :=
            List.takeWhile_append_dropWhile isPyDigit r₂
          split at h
          next hdw2 =>
            simp only [Option.some.injEq, Prod.mk.injEq] at h
            obtain ⟨e1, e2, e3⟩ := h
            refine ⟨?_, by rw [← e1]; exact h1,
              by rw [← e1]; exact fun c hc => List.mem_takeWhile_imp hc,
              by rw [← e2]; exact fun c hc => List.mem_takeWhile_imp hc, by rw [← e3]; rfl⟩
            rw [← e1, ← e2, ← e3]
            rw [fracChars_of_ne h2, sfxChars, List.append_nil]
            rw [hdw2, List.append_nil] at hw2
            rw [hw2, ← hdw]
            exact hw.symm
          next y r₄ hdw2 =>
            split at h
            next hk =>
              simp only [Bool.and_eq_true, List.isEmpty_iff] at hk
              obtain ⟨hky, hr4⟩ := hk
              subst hr4
              simp only [Option.some.injEq, Prod.mk.injEq] at h
              obtain ⟨e1, e2, e3⟩ := h
              refine ⟨?_, by rw [← e1]; exact h1,
                by rw [← e1]; exact fun c hc => List.mem_takeWhile_imp hc,
                by rw [← e2]; exact fun c hc => List.mem_takeWhile_imp hc,
                by rw [← e3]; exact hky⟩
              rw [← e1, ← e2, ← e3]
              rw [fracChars_of_ne h2, sfxChars]
              rw [hdw2] at hw2
              rw [List.append_assoc, List.cons_append, hw2, ← hdw]
              exact hw.symm
            · exact absurd h (by simp)
      next hx =>
        split at h
        next hk =>
          simp only [Bool.and_eq_true, List.isEmpty_iff] at hk
          obtain ⟨hkx, hr2⟩ := hk
          subst hr2
          simp only [Option.some.injEq, Prod.mk.injEq] at h
          obtain ⟨e1, e2, e3⟩ := h
          refine ⟨?_, by rw [← e1]; exact h1,
            by rw [← e1]; exact fun c hc => List.mem_takeWhile_imp hc,
            by rw [← e2]; simp, by rw [← e3]; exact hkx⟩
          rw [← e1, ← e2, ← e3]
          rw [fracChars, sfxChars, List.append_nil]
          rw [← hdw]
          exact hw.symm
        · exact absurd h (by simp)

lemma matchVotes_none_of_noShape {w : List Char}
    (h : ∀ (d₁ d₂ : List Char) (sx : Option Char), ¬ VotesShape w d₁ d₂ sx) :
    matchVotes w = none := by
  cases hm : matchVotes w with
  | none => rfl
  | some t =>
    obtain ⟨a, b, c⟩ := t
    exact absurd (votesShape_complete hm) (h a b c)

-- ## Vote-count parser: C7, C2

-- ## Binary64 rounding lemmas and concrete double values
lemma roundEven_eq_floor (n : ℤ) {x : ℚ} (h1 : (n : ℚ) ≤ x) (h2 : x < (n : ℚ) + 1 / 2) :
    roundEven x = n := by
  have hfl : ⌊x⌋ = n := Int.floor_eq_iff.mpr ⟨h1, by linarith⟩
  unfold roundEven
  rw [hfl, if_pos (by linarith)]

lemma roundEven_eq_ceil (n : ℤ) {x : ℚ} (h1 : (n : ℚ) + 1 / 2 < x) (h2 : x < (n : ℚ) + 1) :
    roundEven x = n + 1 := by
  have hfl : ⌊x⌋ = n := Int.floor_eq_iff.mpr ⟨by linarith, by linarith⟩
  unfold roundEven
  rw [hfl, if_neg (by linarith), if_pos (by linarith)]

lemma roundEven_intCast (n : ℤ) : roundEven ((n : ℚ)) = n :=
  roundEven_eq_floor n le_rfl (by norm_num)

lemma intLog_two_eq {q : ℚ} {k : ℤ} (h0 : 0 < q) (h1 : (2 : ℚ) ^ k ≤ q)
    (h2 : q < (2 : ℚ) ^ (k + 1)) : Int.log 2 q = k := by
  have hb : 1 < (2 : ℕ) := one_lt_two
  have ha : k ≤ Int.log 2 q := (Int.zpow_le_iff_le_log hb h0).mp (by exact_mod_cast h1)
  have hc : Int.log 2 q < k + 1 := (Int.lt_zpow_iff_log_lt hb h0).mp (by exact_mod_cast h2)
  omega

lemma fp64_eval (k n : ℤ) {q : ℚ} (h0 : 0 < q) (h1 : (2 : ℚ) ^ k ≤ q)
    (h2 : q < (2 : ℚ) ^ (k + 1)) (h3 : roundEven (q * 2 ^ (52 - k)) = n) :
    fp64 q = (n : ℚ) * 2 ^ (k - 52) := by
  unfold fp64
  rw [if_pos h0, intLog_two_eq h0 h1 h2, h3]

lemma fp64_of_exact (k n : ℤ) {q : ℚ} (h0 : 0 < q) (h1 : (2 : ℚ) ^ k ≤ q)
    (h2 : q < (2 : ℚ) ^ (k + 1)) (h4 : q * 2 ^ (52 - k) = (n : ℚ)) : fp64 q = q := by
  have h3 : roundEven (q * 2 ^ (52 - k)) = n := by
    rw [h4]
    exact roundEven_intCast n
  rw [fp64_eval k n h0 h1 h2 h3, ← h4, mul_assoc, ← zpow_add₀ (by norm_num : (2 : ℚ) ≠ 0)]
  norm_num

lemma fp64_dec_1015 : fp64 (1015 / 1000) = 4571153621781053 / 4503599627370496 := by
  have h3 : roundEven ((1015 / 1000 : ℚ) * 2 ^ ((52 : ℤ) - 0)) = 4571153621781053 :=
    roundEven_eq_floor 4571153621781053 (by norm_num) (by norm_num)
  rw [fp64_eval 0 4571153621781053 (by norm_num) (by norm_num) (by norm_num) h3]
  norm_num

lemma fp64_prod_1015 :
    fp64 ((4571153621781053 / 4503599627370496 : ℚ) * 1000) =
      8928034417541119 / 8796093022208 := by
  have h3 : roundEven ((4571153621781053 / 4503599627370496 : ℚ) * 1000 * 2 ^ ((52 : ℤ) - 9)) =
      8928034417541119 :=
    roundEven_eq_floor 8928034417541119 (by norm_num) (by norm_num)
  rw [fp64_eval 9 8928034417541119 (by norm_num) (by norm_num) (by norm_num) h3]
  norm_num

lemma fp64_dec_31 : fp64 (31 / 10) = 6980579422424269 / 2251799813685248 := by
  have h3 : roundEven ((31 / 10 : ℚ) * 2 ^ ((52 : ℤ) - 1)) = 6980579422424269 := by
    have h := roundEven_eq_ceil 6980579422424268 (x := (31 / 10 : ℚ) * 2 ^ ((52 : ℤ) - 1))
      (by norm_num) (by norm_num)
    rw [h]
    norm_num
  rw [fp64_eval 1 6980579422424269 (by norm_num) (by norm_num) (by norm_num) h3]
  norm_num

lemma fp64_prod_31 :
    fp64 ((6980579422424269 / 2251799813685248 : ℚ) * 1000000) = 3100000 := by
  have h3 : roundEven ((6980579422424269 / 2251799813685248 : ℚ) * 1000000 *
      2 ^ ((52 : ℤ) - 21)) = 6657199308800000 :=
    roundEven_eq_floor 6657199308800000 (by norm_num) (by norm_num)
  rw [fp64_eval 21 6657199308800000 (by norm_num) (by norm_num) (by norm_num) h3]
  norm_num

lemma fp64_946 : fp64 946 = 946 :=
  fp64_of_exact 9 8321103999008768 (by norm_num) (by norm_num) (by norm_num) (by norm_num)

lemma fp64_946000 : fp64 946000 = 946000 :=
  fp64_of_exact 19 8126078124032000 (by norm_num) (by norm_num) (by norm_num) (by norm_num)

lemma fp64_2345 : fp64 2345 = 2345 :=
  fp64_of_exact 11 5156709534269440 (by norm_num) (by norm_num) (by norm_num) (by norm_num)


instance instDecVotesShape (w d₁ d₂ : List Char) (sx : Option Char) :
    Decidable (VotesShape w d₁ d₂ sx) := by
  unfold VotesShape
  infer_instance

lemma shape_head_digit {w d₁ d₂ : List Char} {sx : Option Char}
    (h : VotesShape w d₁ d₂ sx) : ∃ c t, w = c :: t ∧ isPyDigit c = true := by
  obtain ⟨hw, h1, hd1, _, _⟩ := h
  cases d₁ with
  | nil => exact absurd rfl h1
  | cons c t =>
    refine ⟨c, t ++ fracChars d₂ ++ sfxChars sx, ?_, hd1 c (List.mem_cons_self c t)⟩
    rw [hw]
    simp

lemma parse_some_of_shape (s : String) (d₁ d₂ : List Char) (sx : Option Char)
    (h : VotesShape (cleanVotes s.data) d₁ d₂ sx) :
    parse_votes_to_int (some s) = some ⌊fp64 (fp64 (votesVal d₁ d₂) * suffMult sx)⌋ := by
  obtain ⟨c, t, hct, hcd⟩ := shape_head_digit h
  have hne : ¬ (s = "" ∨ s = "N/A") := by
    rintro (rfl | rfl)
    · rw [show cleanVotes (("" : String).data) = [] from rfl] at hct
      exact List.noConfusion hct
    · rw [show cleanVotes (("N/A" : String).data) = ['N', '/', 'A'] from by decide] at hct
      injection hct with hc _
      subst hc
      exact absurd hcd (by decide)
  rw [parse_votes_to_int, if_neg hne, votesShape_sound h]

lemma parse_none_of_noShape {s : String}
    (h : ∀ (d₁ d₂ : List Char) (sx : Option Char), ¬ VotesShape (cleanVotes s.data) d₁ d₂ sx) :
    parse_votes_to_int (some s) = none := by
  by_cases hne : s = "" ∨ s = "N/A"
  · rw [parse_votes_to_int, if_pos hne]
  · rw [parse_votes_to_int, if_neg hne, matchVotes_none_of_noShape h]

lemma votesVal_31 : votesVal ['3'] ['1'] = 31 / 10 := by
  rw [votesVal, show digitsToNat ['3'] = 3 from rfl, show digitsToNat ['1'] = 1 from rfl]
  norm_num

lemma votesVal_946 : votesVal ['9', '4', '6'] [] = 946 := by
  rw [votesVal, show digitsToNat ['9', '4', '6'] = 946 from rfl,
    show digitsToNat ([] : List Char) = 0 from rfl]
  norm_num

lemma votesVal_2345 : votesVal ['2', '3', '4', '5'] [] = 2345 := by
  rw [votesVal, show digitsToNat ['2', '3', '4', '5'] = 2345 from rfl,
    show digitsToNat ([] : List Char) = 0 from rfl]
  norm_num

lemma votesVal_1015 : votesVal ['1'] ['0', '1', '5'] = 1015 / 1000 := by
  rw [votesVal, show digitsToNat ['1'] = 1 from rfl,
    show digitsToNat ['0', '1', '5'] = 15 from rfl]
  norm_num

lemma suffMult_none_eq : suffMult none = 1 := rfl

lemma suffMult_K : suffMult (some 'K') = 1000 := by
  simp only [suffMult]
  rw [if_pos (by decide)]

lemma suffMult_M : suffMult (some 'M') = 1000000 := by
  simp only [suffMult]
  rw [if_neg (by decide), if_pos (by decide)]

lemma parse_1015K : parse_votes_to_int (some "1.015K") = some 1014 := by
  rw [parse_some_of_shape "1.015K" ['1'] ['0', '1', '5'] (some 'K') (by decide),
    votesVal_1015, suffMult_K, fp64_dec_1015, fp64_prod_1015]
  norm_num [Int.floor_eq_iff]

/-- Claim C7, counterexample: on `"1.015K"` the parser returns 1014 — the
truncation of the binary64 product `float('1.015') * 1000`, which lies just
below 1015 — whereas the claim's exact numeric part times 1000, truncated,
is 1015; so the parser does not return the truncated exact product for every
matching string. -/
theorem vote_parser_c7_counterexample :
    parse_votes_to_int (some "1.015K") = some 1014 ∧
      ⌊votesVal ['1'] ['0', '1', '5'] * suffMult (some 'K')⌋ = 1015 ∧
      parse_votes_to_int (some "1.015K") ≠
        some ⌊votesVal ['1'] ['0', '1', '5'] * suffMult (some 'K')⌋ := by
  have h2 : ⌊votesVal ['1'] ['0', '1', '5'] * suffMult (some 'K')⌋ = (1015 : ℤ) := by
    rw [votesVal_1015, suffMult_K]
    norm_num [Int.floor_eq_iff]
  refine ⟨parse_1015K, h2, ?_⟩
  rw [parse_1015K, h2]
  decide

/-- Claim C7, amended: the Vote-Count Parser maps every string whose cleaned
form (stripped of surrounding whitespace and commas) fully matches
digits-optional-fraction-optional-`K`/`M`-suffix to the numeric part
converted to binary64, multiplied by 1, 1000 or 1000000 in binary64
arithmetic, and truncated to an integer — because of the two binary64
roundings this can differ from truncating the exact decimal product, e.g.
`"1.015K"` yields 1014, not 1015 — and maps every other string to the
undefined sentinel; `"3.1M"`, `"946K"`, `"2,345"` and `"abc"` still behave as
the claim's instances state. -/
theorem vote_parser_c7 :
    (parse_votes_to_int (some "3.1M") = some 3100000 ∧
     parse_votes_to_int (some "946K") = some 946000 ∧
     parse_votes_to_int (some "2,345") = some 2345 ∧
     parse_votes_to_int (some "abc") = none ∧
     parse_votes_to_int (some "1.015K") = some 1014) ∧
    (∀ (s : String) (d₁ d₂ : List Char) (sx : Option Char),
      VotesShape (cleanVotes s.data) d₁ d₂ sx →
      parse_votes_to_int (some s) = some ⌊fp64 (fp64 (votesVal d₁ d₂) * suffMult sx)⌋) ∧
    (∀ s : String,
      (∀ (d₁ d₂ : List Char) (sx : Option Char), ¬ VotesShape (cleanVotes s.data) d₁ d₂ sx) →
      parse_votes_to_int (some s) = none) := by
  refine ⟨⟨?_, ?_, ?_, by decide, parse_1015K⟩,
    fun s d₁ d₂ sx h => parse_some_of_shape s d₁ d₂ sx h, fun s h => parse_none_of_noShape h⟩
  · rw [parse_some_of_shape "3.1M" ['3'] ['1'] (some 'M') (by decide),
      votesVal_31, suffMult_M, fp64_dec_31, fp64_prod_31]
    norm_num [Int.floor_eq_iff]
  · rw [parse_some_of_shape "946K" ['9', '4', '6'] [] (some 'K') (by decide),
      votesVal_946, suffMult_K, fp64_946, show (946 : ℚ) * 1000 = 946000 from by norm_num,
      fp64_946000]
    norm_num [Int.floor_eq_iff]
  · rw [parse_some_of_shape "2,345" ['2', '3', '4', '5'] [] none (by decide),
      votesVal_2345, suffMult_none_eq, fp64_2345,
      show (2345 : ℚ) * 1 = 2345 from by norm_num, fp64_2345]
    norm_num [Int.floor_eq_iff]

/-- Claim C7, witness: the matching case of the amended theorem instantiated
at `"3.1M"` with its explicit decomposition. -/
theorem vote_parser_c7_witness :
    parse_votes_to_int (some "3.1M") =
      some ⌊fp64 (fp64 (votesVal ['3'] ['1']) * suffMult (some 'M'))⌋ :=
  vote_parser_c7.2.1 "3.1M" ['3'] ['1'] (some 'M') (by decide)


/-- Claim C2, counterexample: in the dashboard ingestion path, `clean_votes`
maps the literal `'N/A'` to the number 0, not to the undefined sentinel. -/
theorem vote_missing_c2_counterexample :
    clean_votes (some "N/A") = some 0 ∧ clean_votes (some "N/A") ≠ none := by
  constructor
  · simp [clean_votes]
  · simp [clean_votes]

/-- Claim C2, amended: in the scraper path, `parse_votes_to_int` maps absent
input, the literal `'N/A'`, the empty string and every unmatchable string to
the undefined sentinel and never to the number 0; in the dashboard path,
however, `clean_votes` maps absent, empty and `'N/A'` input to the number 0
(the counterexample), while an otherwise unparsable string still coerces to
the undefined sentinel. -/
theorem vote_missing_c2 :
    (parse_votes_to_int none = none ∧
     parse_votes_to_int (some "N/A") = none ∧
     parse_votes_to_int (some "") = none ∧
     clean_votes none = some 0 ∧
     clean_votes (some "") = some 0 ∧
     clean_votes (some "N/A") = some 0 ∧
     clean_votes (some "abc") = none) ∧
    ∀ s : String,
      (∀ (d₁ d₂ : List Char) (sx : Option Char), ¬ VotesShape (cleanVotes s.data) d₁ d₂ sx) →
      parse_votes_to_int (some s) = none := by
  refine ⟨⟨rfl, ?_, ?_, rfl, ?_, ?_, by decide⟩, fun s h => parse_none_of_noShape h⟩
  · rw [parse_votes_to_int, if_pos (Or.inr rfl)]
  · rw [parse_votes_to_int, if_pos (Or.inl rfl)]
  · simp [clean_votes]
  · simp [clean_votes]

/-- Claim C2, witness: the unmatchable string `"abc"` yields the undefined
sentinel in the scraper path. -/
theorem vote_missing_c2_witness :
    parse_votes_to_int (some "abc") = none :=
  vote_missing_c2.2 "abc" (fun d₁ d₂ sx hsh => by
    have hs := votesShape_sound hsh
    rw [show matchVotes (cleanVotes (("abc" : String).data)) = none from by decide] at hs
    exact Option.noConfusion hs)

-- ## Rank/title splitter: C4

lemma rankMatch_of_shape {ds rest : List Char} (h1 : ds ≠ [])
    (hds : ∀ x ∈ ds, isPyDigit x = true)
    (hd : dollarOk (rest.dropWhile isPySpace) = true) :
    rankMatch (ds ++ '.' :: rest) = some (ds, rest.dropWhile isPySpace) := by
  unfold rankMatch
  rw [takeWhile_append_stop hds (by decide), dropWhile_append_stop hds (by decide)]
  simp [h1, hd]

/-- Claim C4, counterexample: on missing input and on the empty string the
Rank/Title Splitter returns the title `"N/A"`, not the empty title the claim
prescribes. -/
theorem rank_title_c4_counterexample :
    normalize_title_and_rank none ≠ ((none : Option ℕ), "") ∧
      normalize_title_and_rank (some "") ≠ ((none : Option ℕ), "") := by
  decide

/-- Claim C4, amended: missing or empty input yields `(undefined rank, "N/A")`
(the source substitutes the literal `"N/A"`, not the empty string, for the
title); a string of a leading digit run, a literal period, optional whitespace
and an acceptable remainder yields that integer and the trimmed remainder; any
other non-empty string yields no rank and the trimmed original string. -/
theorem rank_title_c4 :
    (normalize_title_and_rank none = (none, "N/A") ∧
     normalize_title_and_rank (some "") = (none, "N/A")) ∧
    (∀ (s : String) (ds rest : List Char),
      s.data = ds ++ '.' :: rest → ds ≠ [] → (∀ x ∈ ds, isPyDigit x = true) →
      dollarOk (rest.dropWhile isPySpace) = true →
      normalize_title_and_rank (some s) =
        (some (digitsToNat ds), String.mk (pyStrip (rest.dropWhile isPySpace)))) ∧
    (∀ s : String, s ≠ "" → rankMatch s.data = none →
      normalize_title_and_rank (some s) = (none, String.mk (pyStrip s.data))) := by
  refine ⟨⟨rfl, rfl⟩, ?_, ?_⟩
  · intro s ds rest hdata h1 hds hd
    have hne : s ≠ "" := by
      intro hs
      subst hs
      rw [show (("" : String)).data = [] from rfl] at hdata
      cases ds with
      | nil => exact absurd rfl h1
      | cons a as => exact List.noConfusion hdata
    rw [normalize_title_and_rank, if_neg hne, hdata, rankMatch_of_shape h1 hds hd]
  · intro s hne hmatch
    rw [normalize_title_and_rank, if_neg hne, hmatch]

/-- Claim C4, witness: the amended matching case at `"12. Some Movie"`. -/
theorem rank_title_c4_witness :
    normalize_title_and_rank (some "12. Some Movie") =
      (some (digitsToNat ['1', '2']),
        String.mk (pyStrip (((" Some Movie" : String).data).dropWhile isPySpace))) :=
  rank_title_c4.2.1 "12. Some Movie" ['1', '2'] (" Some Movie" : String).data
    (by decide) (by decide) (by decide) (by decide)

-- ## Genre classifier and row normalizer: C9, C1, C3

lemma joinGenres_cons_cons (g g₂ : String) (gs : List String) :
    joinGenres (g :: g₂ :: gs) = g.data ++ ',' :: ' ' :: joinGenres (g₂ :: gs) := rfl

lemma joinGenres_head {g : String} (gs : List String) (hg : ',' ∉ g.data) :
    (joinGenres (g :: gs)).takeWhile (fun c => !(c == ',')) = g.data := by
  cases gs with
  | nil =>
    apply takeWhile_all
    intro c hc
    have hcne : c ≠ ',' := fun h => hg (h ▸ hc)
    simp [hcne]
  | cons g₂ gs₂ =>
    rw [joinGenres_cons_cons]
    refine takeWhile_append_stop (fun c hc => ?_) (by decide)
    have hcne : c ≠ ',' := fun h => hg (h ▸ hc)
    simp [hcne]

lemma extract_ne_nil (table : List (String × List String)) (t : Option String) :
    extractGenresFrom table t ≠ [] := by
  cases t with
  | none => simp [extractGenresFrom]
  | some ts =>
    show (if matchedGenres table ts = [] then ["Drama"] else matchedGenres table ts) ≠ []
    by_cases hm : matchedGenres table ts = []
    · rw [if_pos hm]
      simp
    · rw [if_neg hm]
      exact hm

lemma mem_extract {table : List (String × List String)} {t : Option String} {g : String}
    (hg : g ∈ extractGenresFrom table t) : g ∈ "Drama" :: table.map Prod.fst := by
  cases t with
  | none =>
    simp only [extractGenresFrom, List.mem_singleton] at hg
    rw [hg]
    exact List.mem_cons_self _ _
  | some ts =>
    have hg' : g ∈ (if matchedGenres table ts = [] then ["Drama"] else matchedGenres table ts) :=
      hg
    clear hg
    rename' hg' => hg
    by_cases hm : matchedGenres table ts = []
    · rw [if_pos hm] at hg
      simp only [List.mem_singleton] at hg
      rw [hg]
      exact List.mem_cons_self _ _
    · rw [if_neg hm] at hg
      unfold matchedGenres at hg
      obtain ⟨pr, hpr, hfst⟩ := List.mem_map.mp hg
      rw [← hfst]
      exact List.mem_cons_of_mem _ (List.mem_map_of_mem _ (List.mem_of_mem_filter hpr))

lemma primaryFrom_eq_headI {table : List (String × List String)} (t : Option String)
    (hnames : ∀ n ∈ "Drama" :: table.map Prod.fst, ',' ∉ n.data ∧ pyStrip n.data = n.data) :
    primaryFrom table t = (extractGenresFrom table t).headI := by
  cases hgs : extractGenresFrom table t with
  | nil => exact absurd hgs (extract_ne_nil table t)
  | cons g rest =>
    have hin : g ∈ extractGenresFrom table t := by
      rw [hgs]
      exact List.mem_cons_self g rest
    have hgmem : g ∈ "Drama" :: table.map Prod.fst := mem_extract hin
    obtain ⟨hcomma, hstrip⟩ := hnames g hgmem
    unfold primaryFrom
    rw [hgs, joinGenres_head rest hcomma, hstrip]
    rfl

lemma csv_names_clean :
    ∀ n ∈ "Drama" :: csv_genre_keywords.map Prod.fst,
      ',' ∉ n.data ∧ pyStrip n.data = n.data := by decide

lemma dash_names_clean :
    ∀ n ∈ "Drama" :: dash_genre_keywords.map Prod.fst,
      ',' ∉ n.data ∧ pyStrip n.data = n.data := by decide


/-- Claim C9: for every title input, both genre classifiers return a non-empty
genre sequence — exactly `["Drama"]` when the title is absent or no keyword
matches — and the derived primary genre is always defined and equal to the
first element of that sequence. -/
theorem genre_classifier_c9 :
    ∀ t : Option String,
      (csv_extract_genres t ≠ [] ∧ ∀ y, dash_extract_genres t y ≠ []) ∧
      (t = none → csv_extract_genres t = ["Drama"] ∧ ∀ y, dash_extract_genres t y = ["Drama"]) ∧
      (∀ ts : String, t = some ts → matchedGenres csv_genre_keywords ts = [] →
        csv_extract_genres t = ["Drama"]) ∧
      (∀ (ts : String) (y : Option String), t = some ts →
        matchedGenres dash_genre_keywords ts = [] → dash_extract_genres t y = ["Drama"]) ∧
      csv_primary_genre t = (csv_extract_genres t).headI ∧
      (∀ y, dash_primary_genre t y = (dash_extract_genres t y).headI) := by
  intro t
  refine ⟨⟨extract_ne_nil _ t, fun y => extract_ne_nil _ t⟩, ?_, ?_, ?_, ?_, fun y => ?_⟩
  · rintro rfl
    exact ⟨rfl, fun y => rfl⟩
  · rintro ts rfl hm
    show (if matchedGenres csv_genre_keywords ts = []
      then ["Drama"] else matchedGenres csv_genre_keywords ts) = ["Drama"]
    rw [if_pos hm]
  · rintro ts y rfl hm
    show (if matchedGenres dash_genre_keywords ts = []
      then ["Drama"] else matchedGenres dash_genre_keywords ts) = ["Drama"]
    rw [if_pos hm]
  · exact primaryFrom_eq_headI t csv_names_clean
  · exact primaryFrom_eq_headI t dash_names_clean

/-- Claim C9, witness: the classifier and primary genre at an absent title. -/
theorem genre_classifier_c9_witness :
    csv_extract_genres none = ["Drama"] ∧
      csv_primary_genre none = (csv_extract_genres none).headI :=
  ⟨((genre_classifier_c9 none).2.1 rfl).1, (genre_classifier_c9 none).2.2.2.2.1⟩

/-- Claim C1, counterexample: the two genre classifiers are fed different
keyword tables and disagree on the title `"Demon"`: the loader yields
`["Drama"]` while the dashboard yields `["Horror"]`, and the primary genres
differ accordingly. -/
theorem genre_table_c1_counterexample :
    csv_extract_genres (some "Demon") = ["Drama"] ∧
      dash_extract_genres (some "Demon") none = ["Horror"] ∧
      csv_extract_genres (some "Demon") ≠ dash_extract_genres (some "Demon") none ∧
      csv_primary_genre (some "Demon") ≠ dash_primary_genre (some "Demon") none := by
  refine ⟨by decide, by decide, by decide, by decide⟩

/-- Claim C1, amended: the loader and the dashboard each define their own
genre keyword table; the two tables declare the same genre labels in the same
order, but their keyword sets differ, so the two classifiers are not
extensionally equal (they disagree on `"Demon"`, see the counterexample);
both default to `["Drama"]` on an absent title. -/
theorem genre_table_c1 :
    csv_genre_keywords.map Prod.fst = dash_genre_keywords.map Prod.fst ∧
      csv_genre_keywords ≠ dash_genre_keywords ∧
      csv_extract_genres none = ["Drama"] ∧
      (∀ y, dash_extract_genres none y = ["Drama"]) := by
  refine ⟨by decide, by decide, rfl, fun y => rfl⟩

/-- Claim C3: the Row Normalizer is total and per-record — a batch of
RawRecords is mapped one-to-one to NormalizedRecords (no record is dropped and
nothing is raised, every sub-parser degrading failures to the field's missing
value), while the dropping of rows with missing critical fields is a separate
subsequent stage of the two loaders, outside the normalization map. -/
theorem row_normalizer_c3 :
    ∀ rs : List RawRecord,
      (normalizeBatch rs).length = rs.length ∧
      (rs.map dashNormalizeRecord).length = rs.length ∧
      (∀ i : ℕ, (normalizeBatch rs)[i]? = Option.map normalizeRecord rs[i]?) ∧
      load_imdb_csv_rows rs = (normalizeBatch rs).filter keepCritical ∧
      load_and_process_rows rs = (rs.map dashNormalizeRecord).filter dashKeep := by
  intro rs
  refine ⟨?_, ?_, fun i => ?_, rfl, rfl⟩
  · simp [normalizeBatch]
  · simp
  · simp [normalizeBatch]

end IMDB
